import Mathlib

/-! Shallow embedding of the query-synthesis-and-verification loop of the
finance_advisor repository: the retry loop of `sql_query` (src/agent.py,
lines 122-233), the store execution primitive `execute_readonly_query`
(src/db.py, lines 85-102), the result formatting block, and the tenant
placeholder substitution.  The two LLM calls and the sqlite layer are
external collaborators and enter the embedding as an explicit oracle
(`Env`); the loop itself is embedded faithfully from the source. -/

/-- Scalar values in a sqlite result row (src/db.py converts each fetched row
to a Python dict mapping column name to scalar value).  Floating point
columns are not modelled; the claims only involve integer and text values. -/
inductive Value
  | vint (n : Int)
  | vtext (s : String)
  | vnull
  deriving DecidableEq

/-- A result row: a mapping from column name to scalar value, in column
order, as produced by `dict(row)` at src/db.py line 96. -/
abbrev Row := List (String × Value)

/-- Value of a named column of a row. -/
def lookupVal (col : String) (r : Row) : Option Value :=
  (r.find? (fun kv => kv.1 == col)).map (·.2)

/-- Python `str()` of a scalar value, as used by f-string interpolation at
src/agent.py line 216. -/
def pyStr : Value → String
  | Value.vint n => toString n
  | Value.vtext s => s
  | Value.vnull => "None"

/-- A single-quote character, written by code point to keep quote characters
out of string literals. -/
def squote : String := String.singleton (Char.ofNat 39)

/-- Python `repr()` of a scalar value, as used inside `str(result)` at
src/agent.py line 220.  String escaping is not modelled: this is faithful
for text values containing no quote or backslash characters. -/
def pyRepr : Value → String
  | Value.vint n => toString n
  | Value.vtext s => squote ++ s ++ squote
  | Value.vnull => "None"

/-- Python `sep.join(parts)`. -/
def pyJoin (sep : String) : List String → String
  | [] => ""
  | [x] => x
  | x :: xs => x ++ sep ++ pyJoin sep xs

/-- Python `repr()` of one dict entry; sqlite column names are strings, so the
key is single-quoted. -/
def pairRepr (kv : String × Value) : String :=
  squote ++ kv.1 ++ squote ++ ": " ++ pyRepr kv.2

/-- Python `repr()` of one row dict. -/
def rowRepr (r : Row) : String :=
  "\x7b" ++ pyJoin ", " (r.map pairRepr) ++ "\x7d"

/-- Python `str(result)` for the list of row dicts (src/agent.py line 220). -/
def pyStrRows (rs : List Row) : String :=
  "[" ++ pyJoin ", " (rs.map rowRepr) ++ "]"

/-- Python `str.rstrip(" | ")` (src/agent.py line 217): removes every trailing
character belonging to the two-character set of space and pipe. -/
def rstripPipeSp (s : String) : String :=
  ⟨((s.data.reverse).dropWhile (fun c => c == ' ' || c == '|')).reverse⟩

/-- The accumulation `tool_answer += f"{key}: {value} | "` of src/agent.py
line 216, folded over the columns of one row in order. -/
def rowFold (acc : String) (r : Row) : String :=
  r.foldl (fun a kv => a ++ kv.1 ++ ": " ++ pyStr kv.2 ++ " | ") acc

/-- The result formatting block of src/agent.py lines 210-220: zero rows give
a fixed literal, exactly one row gives the rstripped pipe-separated line plus
a newline, more rows give `str(result)`. -/
def format_result (result : List Row) : String :=
  if result.length = 0 then "No results found."
  else if result.length = 1 then
    result.foldl (fun acc row => rstripPipeSp (rowFold acc row) ++ "\n") ""
  else pyStrRows result

/-- One `column: value` fragment as the spec words the one-row shape. -/
def pairLine (kv : String × Value) : String := kv.1 ++ ": " ++ pyStr kv.2

/-- The one-row output shape as the spec words it (§4.4): a single
pipe-separated `column: value` line, trailing separator trimmed, terminated
with one newline.  Written from the spec, for comparison with
`format_result`. -/
def specSingletonLine (r : Row) : String :=
  pyJoin " | " (r.map pairLine) ++ "\n"

/-- The literal placeholder token `"<user_id>"` of src/agent.py line 208. -/
def userIdTag : List Char := ['<', 'u', 's', 'e', 'r', '_', 'i', 'd', '>']

/-- Python `str.replace` specialised to the fixed pattern `"<user_id>"`: scan
left to right, replace every non-overlapping occurrence by `rep`, leave every
other character unchanged (src/agent.py line 208). -/
def substUserId (rep : List Char) : List Char → List Char
  | '<' :: 'u' :: 's' :: 'e' :: 'r' :: '_' :: 'i' :: 'd' :: '>' :: rest =>
      rep ++ substUserId rep rest
  | c :: rest => c :: substUserId rep rest
  | [] => []

/-- `sql_response.replace("<user_id>", str(state["user_id"]))` at
src/agent.py line 208. -/
def substitute (cand : String) (uid : Int) : String :=
  ⟨substUserId (toString uid).data cand.data⟩

/-- The verifier verdict (class `SQLEvaluation`, src/agent.py lines 34-36). -/
structure SQLEvaluation where
  is_correct : Bool
  feedback : String
  deriving DecidableEq

/-- Outcome of the sqlite layer for one executed query string: `rows` when
the query runs, `sqliteErr` when sqlite raises `sqlite3.Error` inside the
`try` of src/db.py `execute_readonly_query` (where it is caught), `exn` when
an exception escapes `execute_readonly_query` altogether (for example a
failure of the `sqlite3.connect` call at line 86, which sits before the
`try`, or any non-sqlite exception). -/
inductive SqliteOutcome
  | rows (rs : List Row)
  | sqliteErr (msg : String)
  | exn (msg : String)
  deriving DecidableEq

/-- Value returned by src/db.py `execute_readonly_query`: either the list of
row dicts, or — because line 100 is `return f"An error occurred: {e}"`,
returning instead of raising — the error string itself, the declared
annotation `-> list[dict]` notwithstanding. -/
inductive ExecRet
  | rows (rs : List Row)
  | errstr (s : String)
  deriving DecidableEq

/-- src/db.py lines 85-102, as seen by its caller: the query either yields
rows, or a caught `sqlite3.Error` whose message is returned as the string
`"An error occurred: {e}"`, or an escaping exception (`Except.error`). -/
def execute_readonly_query (sqlite : String → SqliteOutcome) (q : String) :
    Except String ExecRet :=
  match sqlite q with
  | SqliteOutcome.rows rs => Except.ok (ExecRet.rows rs)
  | SqliteOutcome.sqliteErr m => Except.ok (ExecRet.errstr ("An error occurred: " ++ m))
  | SqliteOutcome.exn m => Except.error m

/-- The value bound to `tool_answer` by src/agent.py lines 210-220 for a
non-raising execution.  When `result` is the error string returned by
src/db.py line 100 it starts with `"An error occurred: "` (19 characters), so
`len(result)` exceeds 1, the branch taken is `tool_answer = str(result)`,
and Python `str` of a string is that string. -/
def tool_answer_of : ExecRet → String
  | ExecRet.rows rs => format_result rs
  | ExecRet.errstr s => s

/-- Oracle for the external collaborators: the generation LLM call, the
evaluation LLM call, and the sqlite layer.  The first argument of `gen` and
`eval` is the attempt index, so that successive calls may answer differently
(LLM nondeterminism); the remaining arguments are the data of the prompts
that vary across attempts — `previous_response` and `feedback` for
generation, the candidate query for evaluation. -/
structure Env where
  gen : Nat → String → String → String
  eval : Nat → String → SQLEvaluation
  sqlite : String → SqliteOutcome

/-- The two fields of `InternalState` (src/agent.py lines 25-29) that
`sql_query` updates; the pydantic defaults are `tool_error = False` and
`tool_answer = ""`. -/
structure InternalState where
  tool_error : Bool
  tool_answer : String
  deriving DecidableEq

/-- Loop-local record of one retry iteration (the spec's Attempt Record),
exposed so that trace properties can be stated: the attempt index, the
`previous_response`/`feedback` inputs to generation, the candidate produced,
the verdict, and — when the verdict approved — the substituted query string
passed to execution and the sqlite outcome for it. -/
structure Attempt where
  idx : Nat
  prev_in : String
  feedback_in : String
  candidate : String
  verdict : SQLEvaluation
  exec_in : Option String
  exec_out : Option SqliteOutcome
  deriving DecidableEq

/-- The retry loop of src/agent.py `sql_query`, lines 169-233.  `rem` is
`max_retries - retries`; the guard `not is_correct and retries < max_retries`
reduces to `retries < max_retries` because `is_correct` is `False` initially
and on every path that reaches the guard again.  Returns the
`InternalState` update together with the list of attempt records. -/
def runLoop (env : Env) (uid : Int) :
    Nat → Nat → String → String → InternalState × List Attempt
  | 0, _, _, _ => (⟨true, ""⟩, [])
  | rem + 1, k, prev, fb =>
    let cand := env.gen k prev fb
    let v := env.eval k cand
    if v.is_correct then
      let q := substitute cand uid
      match execute_readonly_query env.sqlite q with
      | Except.ok ret =>
          (⟨false, tool_answer_of ret⟩,
            [⟨k, prev, fb, cand, v, some q, some (env.sqlite q)⟩])
      | Except.error m =>
          let next := runLoop env uid rem (k + 1) cand
            ("The SQL query failed to execute. Error: " ++ m)
          (next.1, ⟨k, prev, fb, cand, v, some q, some (env.sqlite q)⟩ :: next.2)
    else
      let next := runLoop env uid rem (k + 1) cand v.feedback
      (next.1, ⟨k, prev, fb, cand, v, none, none⟩ :: next.2)

/-- src/agent.py `sql_query` entry: `max_retries = 3`, `retries = 0`,
`feedback = ""`, `sql_response = ""`. -/
def sql_query (env : Env) (uid : Int) : InternalState × List Attempt :=
  runLoop env uid 3 0 "" ""

/-! Persistent-state model of the store, for the read-only-execution claim:
the loop-level oracle above treats the store as a black box; here the store
is a database image and src/db.py `execute_readonly_query` is read at the
level of the sqlite3 connection it opens. -/

/-- The persistent store: each table is a name with its rows. -/
structure DBState where
  tables : List (String × List Row)
  deriving DecidableEq

/-- Statements large enough to express the mutating statements the claim
mentions (UPDATE, DELETE, DROP) together with SELECT and INSERT. -/
inductive SqlStmt
  | selectAll (tbl : String)
  | insertRow (tbl : String) (r : Row)
  | updateSet (tbl : String) (col : String) (v : Value)
  | deleteAll (tbl : String)
  | dropTable (tbl : String)
  deriving DecidableEq

/-- Rows of a named table, `none` when the table does not exist. -/
def getTable (db : DBState) (t : String) : Option (List Row) :=
  (db.tables.find? (fun e => e.1 == t)).map (·.2)

/-- Replace the rows of a named table. -/
def setTable (db : DBState) (t : String) (rs : List Row) : DBState :=
  ⟨db.tables.map (fun e => if e.1 == t then (e.1, rs) else e)⟩

/-- Remove a table. -/
def dropTbl (db : DBState) (t : String) : DBState :=
  ⟨db.tables.filter (fun e => !(e.1 == t))⟩

/-- Effect and result rows of one statement on a database image;
`Except.error` models `sqlite3.Error`, for example an unknown table. -/
def applyStmt (stmt : SqlStmt) (db : DBState) :
    Except String (DBState × List Row) :=
  match stmt with
  | SqlStmt.selectAll t =>
      match getTable db t with
      | some rs => Except.ok (db, rs)
      | none => Except.error ("no such table: " ++ t)
  | SqlStmt.insertRow t r =>
      match getTable db t with
      | some rs => Except.ok (setTable db t (rs ++ [r]), [])
      | none => Except.error ("no such table: " ++ t)
  | SqlStmt.updateSet t c v =>
      match getTable db t with
      | some rs =>
          Except.ok (setTable db t (rs.map (fun row =>
            row.map (fun kv => if kv.1 == c then (kv.1, v) else kv))), [])
      | none => Except.error ("no such table: " ++ t)
  | SqlStmt.deleteAll t =>
      match getTable db t with
      | some _ => Except.ok (setTable db t [], [])
      | none => Except.error ("no such table: " ++ t)
  | SqlStmt.dropTable t =>
      match getTable db t with
      | some _ => Except.ok (dropTbl db t, [])
      | none => Except.error ("no such table: " ++ t)

/-- Python sqlite3 under legacy transaction control — the default, and what
src/db.py uses (it never sets `isolation_level` or `autocommit`): `execute()`
implicitly opens a transaction only before a DML statement (INSERT, UPDATE,
DELETE, REPLACE); every other statement, including DDL such as DROP TABLE,
runs in autocommit mode and takes effect immediately. -/
def stmtIsDML : SqlStmt → Bool
  | SqlStmt.insertRow _ _ => true
  | SqlStmt.updateSet _ _ _ => true
  | SqlStmt.deleteAll _ => true
  | _ => false

/-- A sqlite3 connection: the committed database plus the open uncommitted
transaction when one exists. -/
structure Conn where
  base : DBState
  pending : Option DBState

/-- `sqlite3.connect(db_name)` at src/db.py line 86: no open transaction. -/
def connect (db : DBState) : Conn := ⟨db, none⟩

/-- `cursor.execute(query)` at src/db.py line 92, under legacy transaction
control: DML is staged in an implicit transaction; anything else joins an
open transaction if there is one and otherwise autocommits. -/
def cursorExecute (c : Conn) (stmt : SqlStmt) :
    Except String (Conn × List Row) :=
  match applyStmt stmt (c.pending.getD c.base) with
  | Except.error e => Except.error e
  | Except.ok (db2, rs) =>
      if stmtIsDML stmt then Except.ok (⟨c.base, some db2⟩, rs)
      else
        match c.pending with
        | some _ => Except.ok (⟨c.base, some db2⟩, rs)
        | none => Except.ok (⟨db2, none⟩, rs)

/-- `conn.close()` in the `finally` at src/db.py line 102, with no preceding
`conn.commit()`: an open transaction is rolled back; autocommitted effects
remain. -/
def closeConn (c : Conn) : DBState := c.base

/-- State-level reading of src/db.py `execute_readonly_query` lines 85-102:
connect, execute, fetch, close — the function never calls `conn.commit()`.
Returns the persistent database after the call together with the function's
Python return value (rows, or the error string of line 100). -/
def execute_readonly_query_state (stmt : SqlStmt) (db : DBState) :
    DBState × ExecRet :=
  let c := connect db
  match cursorExecute c stmt with
  | Except.ok (c2, rs) => (closeConn c2, ExecRet.rows rs)
  | Except.error e => (closeConn c, ExecRet.errstr ("An error occurred: " ++ e))

/-! Concrete fixtures: oracle instantiations (possible collaborator
behaviours) and a store image, used by the concrete-run theorems below. -/

/-- A verifier that approves an unscoped candidate, over a store holding
deals of two tenants: the unscoped query returns both tenants' rows. -/
def envTwoTenants : Env :=
  ⟨fun _ _ _ => "SELECT * FROM deals",
   fun _ _ => ⟨true, ""⟩,
   fun q => if q = "SELECT * FROM deals" then
       SqliteOutcome.rows [[("user_id", Value.vint 1), ("profit", Value.vint 5)],
         [("user_id", Value.vint 2), ("profit", Value.vint 9)]]
     else SqliteOutcome.sqliteErr "no such table"⟩

/-- A verifier-approved candidate naming a column that does not exist:
sqlite reports `no such column` inside the store call. -/
def envBadColumn : Env :=
  ⟨fun _ _ _ => "SELECT profi FROM deals WHERE user_id = <user_id>",
   fun _ _ => ⟨true, ""⟩,
   fun _ => SqliteOutcome.sqliteErr "no such column: profi"⟩

/-- A verifier-approved candidate naming a missing table. -/
def envBadTable : Env :=
  ⟨fun _ _ _ => "SELECT * FROM dealz WHERE user_id = <user_id>",
   fun _ _ => ⟨true, ""⟩,
   fun _ => SqliteOutcome.sqliteErr "no such table: dealz"⟩

/-- A verifier that rejects every attempt, with per-attempt feedback. -/
def envReject : Env :=
  ⟨fun k _ _ => "g" ++ toString k,
   fun k _ => ⟨false, "r" ++ toString k⟩,
   fun _ => SqliteOutcome.rows []⟩

/-- First attempt approved, but the store call raises an exception that
escapes `execute_readonly_query` (for example a connect failure); later
attempts are rejected.  -/
def envBoom : Env :=
  ⟨fun k _ _ => "g" ++ toString k,
   fun k _ => ⟨k == 0, "r" ++ toString k⟩,
   fun _ => SqliteOutcome.exn "boom"⟩

/-- A well-behaved collaborator pair: tenant-scoped candidate, approving
verifier, store answering the scoped query with one balance row. -/
def envHappy : Env :=
  ⟨fun _ _ _ => "SELECT balance FROM users WHERE user_id = <user_id>",
   fun _ _ => ⟨true, ""⟩,
   fun q => if q = "SELECT balance FROM users WHERE user_id = 7" then
       SqliteOutcome.rows [[("balance", Value.vint 100)]]
     else SqliteOutcome.rows []⟩

/-- A collaborator pair for which every executed result is scoped to tenant
1: the approved candidate is tenant-filtered and the store honours it. -/
def envScoped : Env :=
  ⟨fun _ _ _ => "SELECT * FROM deals WHERE user_id = <user_id>",
   fun _ _ => ⟨true, ""⟩,
   fun q => if q = "SELECT * FROM deals WHERE user_id = 1" then
       SqliteOutcome.rows [[("user_id", Value.vint 1)]]
     else SqliteOutcome.rows []⟩

/-- A one-table store image with one row in `deals`. -/
def dbDeals : DBState :=
  ⟨[("deals", [[("id", Value.vint 1), ("user_id", Value.vint 7),
    ("profit", Value.vint 5)]])]⟩

/-! Helper lemmas: strings as character lists. -/

/-- Two strings with equal character data are equal. -/
theorem strExt {s t : String} (h : s.data = t.data) : s = t := by
  cases s; cases t; exact congrArg String.mk h

/-- String append on character data. -/
theorem strData_append (s t : String) : (s ++ t).data = s.data ++ t.data :=
  String.data_append s t

theorem strAppend_empty (s : String) : s ++ "" = s :=
  strExt (by simp [strData_append])

theorem strEmpty_append (s : String) : "" ++ s = s :=
  strExt (by simp [strData_append])

theorem strAppend_assoc (a b c : String) : a ++ b ++ c = a ++ (b ++ c) :=
  strExt (by simp [strData_append])

/-- A list with a last element splits off that element. -/
theorem splitLast {α : Type} {l : List α} {x : α} (h : l.getLast? = some x) :
    ∃ l', l = l' ++ [x] := by
  induction l with
  | nil => cases h
  | cons a rest ih =>
      cases rest with
      | nil =>
          refine ⟨[], ?_⟩
          simp only [List.getLast?_singleton, Option.some.injEq] at h
          rw [h]
          rfl
      | cons b rest2 =>
          rw [List.getLast?_cons_cons] at h
          obtain ⟨l', hl⟩ := ih h
          exact ⟨a :: l', by rw [hl]; rfl⟩

/-- getLast? over append, when the right part has a last element. -/
theorem getLast?_app {l₁ l₂ : List Char} {c : Char} (h : l₂.getLast? = some c) :
    (l₁ ++ l₂).getLast? = some c := by
  rw [List.getLast?_append_of_ne_nil]
  · exact h
  · rintro rfl; cases h

/-! Helper lemmas: pyJoin and the one-row line. -/

theorem pyJoin_cons (sep x : String) {ys : List String} (h : ys ≠ []) :
    pyJoin sep (x :: ys) = x ++ sep ++ pyJoin sep ys := by
  cases ys with
  | nil => exact absurd rfl h
  | cons y ys2 => rfl

/-- The fold of src/agent.py line 216 appends to its accumulator. -/
theorem rowFold_acc (r : Row) : ∀ acc : String, rowFold acc r = acc ++ rowFold "" r := by
  induction r with
  | nil => intro acc; exact (strAppend_empty acc).symm
  | cons kv rest ih =>
      intro acc
      show rowFold (acc ++ kv.1 ++ ": " ++ pyStr kv.2 ++ " | ") rest = _
      rw [ih (acc ++ kv.1 ++ ": " ++ pyStr kv.2 ++ " | ")]
      have h2 : rowFold "" (kv :: rest) = ("" ++ kv.1 ++ ": " ++ pyStr kv.2 ++ " | ") ++ rowFold "" rest := by
        show rowFold ("" ++ kv.1 ++ ": " ++ pyStr kv.2 ++ " | ") rest = _
        rw [ih ("" ++ kv.1 ++ ": " ++ pyStr kv.2 ++ " | ")]
      rw [h2]
      simp only [strAppend_assoc, strEmpty_append]

/-- The fold over a whole row is the joined pair lines plus one trailing
separator. -/
theorem rowFold_join (l : Row) (kv : String × Value) :
    rowFold "" (l ++ [kv]) = pyJoin " | " ((l ++ [kv]).map pairLine) ++ " | " := by
  induction l with
  | nil =>
      show rowFold ("" ++ kv.1 ++ ": " ++ pyStr kv.2 ++ " | ") [] = _
      show "" ++ kv.1 ++ ": " ++ pyStr kv.2 ++ " | " = _
      simp only [List.nil_append, List.map_cons, List.map_nil]
      show _ = pairLine kv ++ " | "
      simp only [pairLine, strAppend_assoc, strEmpty_append]
  | cons x rest ih =>
      have hstep : rowFold "" ((x :: rest) ++ [kv])
          = ("" ++ x.1 ++ ": " ++ pyStr x.2 ++ " | ") ++ rowFold "" (rest ++ [kv]) := by
        show rowFold ("" ++ x.1 ++ ": " ++ pyStr x.2 ++ " | ") (rest ++ [kv]) = _
        rw [rowFold_acc (rest ++ [kv])]
      rw [hstep, ih]
      have hne : (rest ++ [kv]).map pairLine ≠ [] := by simp
      rw [List.cons_append, List.map_cons, pyJoin_cons " | " (pairLine x) hne]
      simp only [pairLine, strAppend_assoc, strEmpty_append]

/-- The joined pair lines end with the last character of the last value. -/
theorem pyJoin_getLast (l : List String) (x : String) {c : Char}
    (h : x.data.getLast? = some c) :
    (pyJoin " | " (l ++ [x])).data.getLast? = some c := by
  induction l with
  | nil => exact h
  | cons y ys ih =>
      have hne : ys ++ [x] ≠ [] := by simp
      rw [List.cons_append, pyJoin_cons " | " y hne]
      rw [strData_append, strData_append]
      rw [List.append_assoc]
      exact getLast?_app (getLast?_app ih)

/-- A pair line ends with the last character of its value text. -/
theorem pairLine_getLast (kv : String × Value) {c : Char}
    (h : (pyStr kv.2).data.getLast? = some c) :
    (pairLine kv).data.getLast? = some c := by
  unfold pairLine
  rw [strData_append, strData_append]
  rw [List.append_assoc]
  exact getLast?_app (getLast?_app h)

/-- `rstrip(" | ")` of a string that ends in one separator and whose part
before the separator ends in a character outside the stripped set removes
exactly the separator. -/
theorem rstrip_sep {s : String} {c : Char} (h : s.data.getLast? = some c)
    (hc : (c == ' ' || c == '|') = false) :
    rstripPipeSp (s ++ " | ") = s := by
  apply strExt
  show ((s ++ " | ").data.reverse.dropWhile (fun ch => ch == ' ' || ch == '|')).reverse = s.data
  rw [strData_append]
  have hsep : (" | " : String).data = [' ', '|', ' '] := rfl
  rw [hsep, List.reverse_append]
  have hrev : s.data.reverse.head? = some c := by
    rw [List.head?_reverse]; exact h
  obtain ⟨rest, hr⟩ : ∃ rest, s.data.reverse = c :: rest := by
    cases hx : s.data.reverse with
    | nil => rw [hx] at hrev; cases hrev
    | cons d rest =>
        rw [hx] at hrev
        cases hrev
        exact ⟨rest, rfl⟩
  rw [hr]
  have hdrop1 : List.dropWhile (fun ch => ch == ' ' || ch == '|')
      ([' ', '|', ' '].reverse ++ c :: rest)
      = List.dropWhile (fun ch => ch == ' ' || ch == '|') (c :: rest) := rfl
  rw [hdrop1]
  have hdrop2 : List.dropWhile (fun ch => ch == ' ' || ch == '|') (c :: rest)
      = c :: rest := by
    simp only [List.dropWhile_cons, hc]
    rfl
  rw [hdrop2, ← hr, List.reverse_reverse]

/-- Central formatter lemma: on a singleton row set whose row has a last
column and whose last value's text is non-empty and does not end in a space
or pipe character, the code's fold-then-rstrip produces exactly the
spec-shaped pipe-separated line. -/
theorem singleton_line_ok (row : Row) (kv : String × Value) (c : Char)
    (hl : row.getLast? = some kv) (hv : (pyStr kv.2).data.getLast? = some c)
    (hc : (c == ' ' || c == '|') = false) :
    format_result [row] = specSingletonLine row := by
  obtain ⟨l, rfl⟩ := splitLast hl
  have h1 : format_result [l ++ [kv]]
      = rstripPipeSp (rowFold "" (l ++ [kv])) ++ "\n" := rfl
  rw [h1, rowFold_join]
  have hlast : (pyJoin " | " ((l ++ [kv]).map pairLine)).data.getLast? = some c := by
    rw [List.map_append, List.map_cons, List.map_nil]
    exact pyJoin_getLast (l.map pairLine) (pairLine kv) (pairLine_getLast kv hv)
  rw [rstrip_sep hlast hc]
  rfl

/-! Helper lemmas: substring (infix) facts for the multi-row rendering. -/

theorem subIn_appendLeft {l a b : List Char} (h : l <:+: a) : l <:+: a ++ b := by
  obtain ⟨u, v, rfl⟩ := h
  exact ⟨u, v ++ b, by simp⟩

theorem subIn_appendRight {l a b : List Char} (h : l <:+: b) : l <:+: a ++ b := by
  obtain ⟨u, v, rfl⟩ := h
  exact ⟨a ++ u, v, by simp⟩

/-- A member of a list of strings occurs inside the join. -/
theorem mem_subIn_pyJoin (sep : String) (s : String) :
    ∀ l : List String, s ∈ l → s.data <:+: (pyJoin sep l).data := by
  intro l
  induction l with
  | nil => intro h; cases h
  | cons y ys ih =>
      intro hmem
      cases ys with
      | nil =>
          have hy : s = y := by
            cases hmem with
            | head => rfl
            | tail _ h2 => cases h2
          rw [hy]
          exact ⟨[], [], by simp [pyJoin]⟩
      | cons z zs =>
          rw [pyJoin_cons sep y (by simp)]
          rw [strData_append, strData_append]
          cases hmem with
          | head => exact subIn_appendLeft (subIn_appendLeft ⟨[], [], by simp⟩)
          | tail _ h2 =>
              rw [List.append_assoc]
              exact subIn_appendRight (subIn_appendRight (ih h2))

/-- The repr of a value occurs inside the repr of any row containing it. -/
theorem pyRepr_subIn_rowRepr (r : Row) (kv : String × Value) (h : kv ∈ r) :
    (pyRepr kv.2).data <:+: (rowRepr r).data := by
  have h1 : (pyRepr kv.2).data <:+: (pairRepr kv).data := by
    show (pyRepr kv.2).data <:+: (squote ++ kv.1 ++ squote ++ ": " ++ pyRepr kv.2).data
    simp only [strData_append]
    exact ⟨(squote.data ++ kv.1.data ++ squote.data ++ (": " : String).data), [],
      by simp⟩
  have h2 : (pairRepr kv).data <:+: (rowRepr r).data := by
    show (pairRepr kv).data
      <:+: ("\x7b" ++ pyJoin ", " (r.map pairRepr) ++ "\x7d").data
    simp only [strData_append]
    have := mem_subIn_pyJoin ", " (pairRepr kv) (r.map pairRepr)
      (List.mem_map_of_mem pairRepr h)
    exact subIn_appendLeft (subIn_appendRight this)
  exact h1.trans h2

/-- The repr of a row occurs inside `str(result)` when the row is in it. -/
theorem rowRepr_subIn_pyStrRows (rs : List Row) (r : Row) (h : r ∈ rs) :
    (rowRepr r).data <:+: (pyStrRows rs).data := by
  show (rowRepr r).data <:+: ("[" ++ pyJoin ", " (rs.map rowRepr) ++ "]").data
  simp only [strData_append]
  have := mem_subIn_pyJoin ", " (rowRepr r) (rs.map rowRepr)
    (List.mem_map_of_mem rowRepr h)
  exact subIn_appendLeft (subIn_appendRight this)

/-- `str(result)` is never the empty string: it starts with a bracket. -/
theorem pyStrRows_ne_empty (rs : List Row) : pyStrRows rs ≠ "" := by
  intro h
  have hd : (pyStrRows rs).data = [] := by rw [h]
  unfold pyStrRows at hd
  rw [strData_append, strData_append] at hd
  simp [show ("[" : String).data = ['['] from rfl] at hd

/-- With two or more rows, src/agent.py line 220 renders `str(result)`. -/
theorem format_result_multi (rs : List Row) (h : 2 ≤ rs.length) :
    format_result rs = pyStrRows rs := by
  unfold format_result
  rw [if_neg (by omega), if_neg (by omega)]

/-! Helper lemmas: the placeholder substitution. -/

/-- Substitution replaces a leading occurrence of the token. -/
theorem subst_append_tag (rep t : List Char) :
    substUserId rep (userIdTag ++ t) = rep ++ substUserId rep t := rfl

/-- Substitution walks over a head that does not start an occurrence. -/
theorem subst_cons_nomatch (rep : List Char) (c : Char) (rest : List Char)
    (h : ¬ userIdTag <+: (c :: rest)) :
    substUserId rep (c :: rest) = c :: substUserId rep rest := by
  apply substUserId.eq_2
  intro rest1 hc hrest
  exact h ⟨rest1, by rw [hc, hrest]; rfl⟩

/-- A candidate containing no occurrence of the token passes through
substitution verbatim. -/
theorem subst_of_no_tag (rep : List Char) :
    ∀ s : List Char, ¬ userIdTag <:+: s → substUserId rep s = s := by
  intro s
  induction s with
  | nil => intro _; rfl
  | cons c rest ih =>
      intro h
      have hpre : ¬ userIdTag <+: (c :: rest) := by
        intro ⟨t, ht⟩
        exact h ⟨[], t, ht⟩
      rw [subst_cons_nomatch rep c rest hpre]
      rw [ih (fun hbad => h (by
        obtain ⟨u, v, huv⟩ := hbad
        exact ⟨c :: u, v, by rw [← huv]; rfl⟩))]

/-- An occurrence inside an append lies in the left part, in the right part,
or spans the boundary with a non-empty piece on each side. -/
theorem subOfAppend {l a b : List Char} (h : l <:+: a ++ b) :
    l <:+: a ∨ l <:+: b ∨
      ∃ p q, p ++ q = l ∧ p ≠ [] ∧ q ≠ [] ∧ p <:+ a ∧ q <+: b := by
  obtain ⟨u, v, huv⟩ := h
  have h1 : u ++ (l ++ v) = a ++ b := by rw [← List.append_assoc]; exact huv
  rcases List.append_eq_append_iff.mp h1 with ⟨w, hw1, hw2⟩ | ⟨w, hw1, hw2⟩
  · rcases List.append_eq_append_iff.mp hw2 with ⟨z, hz1, hz2⟩ | ⟨z, hz1, hz2⟩
    · left
      exact ⟨u, z, by rw [List.append_assoc, ← hz1, ← hw1]⟩
    · by_cases hw0 : w = []
      · right; left
        refine ⟨[], v, ?_⟩
        rw [hw0] at hz1
        simp only [List.nil_append] at hz1 ⊢
        rw [hz1, ← hz2]
      by_cases hz0 : z = []
      · left
        refine ⟨u, [], ?_⟩
        rw [hz0, List.append_nil] at hz1
        rw [List.append_nil, hz1, ← hw1]
      · exact Or.inr (Or.inr ⟨w, z, hz1.symm, hw0, hz0, ⟨u, hw1.symm⟩, ⟨v, hz2.symm⟩⟩)
  · right; left
    exact ⟨w, v, by rw [List.append_assoc]; exact hw2.symm⟩

/-- If a prefix of the substituted text consists only of token characters,
and the replacement shares no character with the token and is non-empty,
then it was already a prefix of the original text. -/
theorem prefixUnderSubst (rep : List Char) (hrep : ∀ ch ∈ rep, ch ∉ userIdTag)
    (hne : rep ≠ []) :
    ∀ n s t, s.length ≤ n → t <+: substUserId rep s →
      (∀ ch ∈ t, ch ∈ userIdTag) → t <+: s := by
  intro n
  induction n with
  | zero =>
      intro s t hlen hpre _
      have hs : s = [] := List.eq_nil_of_length_eq_zero (Nat.le_zero.mp hlen)
      rw [hs] at hpre ⊢
      exact hpre
  | succ n ih =>
      intro s t hlen hpre hchars
      by_cases htag : userIdTag <+: s
      · obtain ⟨u, rfl⟩ := htag
        rw [subst_append_tag] at hpre
        cases t with
        | nil => exact ⟨_, rfl⟩
        | cons d t2 =>
            obtain ⟨w, hw⟩ := hpre
            obtain ⟨r0, rep2, hrep2⟩ : ∃ r0 rep2, rep = r0 :: rep2 := by
              cases rep with
              | nil => exact absurd rfl hne
              | cons r0 rep2 => exact ⟨r0, rep2, rfl⟩
            rw [hrep2] at hw
            have hd : d = r0 := by
              have := congrArg List.head? hw
              simpa using this
            have hd1 : d ∈ userIdTag := hchars d (List.mem_cons_self d t2)
            have hd2 : r0 ∉ userIdTag := hrep r0 (by rw [hrep2]; exact List.mem_cons_self r0 rep2)
            exact absurd (hd ▸ hd1) hd2
      · cases s with
        | nil =>
            cases t with
            | nil => exact ⟨[], rfl⟩
            | cons d t2 => obtain ⟨w, hw⟩ := hpre; cases hw
        | cons c rest =>
            rw [subst_cons_nomatch rep c rest htag] at hpre
            cases t with
            | nil => exact ⟨_, rfl⟩
            | cons d t2 =>
                obtain ⟨w, hw⟩ := hpre
                have hd : d = c := by
                  have := congrArg List.head? hw
                  simpa using this
                have ht2 : t2 <+: substUserId rep rest := by
                  refine ⟨w, ?_⟩
                  have := congrArg List.tail hw
                  simpa using this
                have hlen2 : rest.length ≤ n := by
                  simp only [List.length_cons] at hlen
                  omega
                have := ih rest t2 hlen2 ht2
                  (fun ch hch => hchars ch (List.mem_cons_of_mem d hch))
                obtain ⟨w2, hw2⟩ := this
                exact ⟨w2, by rw [hd, List.cons_append, hw2]⟩

/-- After substitution with a non-empty replacement sharing no character with
the token, the token does not occur anywhere in the result: every occurrence
was replaced and no new one was created. -/
theorem substUserId_no_tag (rep : List Char) (hrep : ∀ ch ∈ rep, ch ∉ userIdTag)
    (hne : rep ≠ []) :
    ∀ s : List Char, ¬ userIdTag <:+: substUserId rep s := by
  have main : ∀ n s, s.length ≤ n → ¬ userIdTag <:+: substUserId rep s := by
    intro n
    induction n with
    | zero =>
        intro s hlen hbad
        have hs : s = [] := List.eq_nil_of_length_eq_zero (Nat.le_zero.mp hlen)
        rw [hs] at hbad
        obtain ⟨u, v, huv⟩ := hbad
        rw [show substUserId rep [] = [] from rfl] at huv
        simp [userIdTag] at huv
    | succ n ih =>
        intro s hlen hbad
        by_cases htag : userIdTag <+: s
        · obtain ⟨u, rfl⟩ := htag
          rw [subst_append_tag] at hbad
          have hlen2 : u.length ≤ n := by
            rw [List.length_append] at hlen
            simp only [userIdTag, List.length_cons, List.length_nil] at hlen
            omega
          rcases subOfAppend hbad with h1 | h2 | ⟨p, q, hpq, hp, hq, hsuf, hqpre⟩
          · have : '<' ∈ rep := h1.subset (by decide)
            exact absurd (by decide : '<' ∈ userIdTag) (hrep '<' this)
          · exact ih u hlen2 h2
          · obtain ⟨d, p2, rfl⟩ : ∃ d p2, p = d :: p2 := by
              cases p with
              | nil => exact absurd rfl hp
              | cons d p2 => exact ⟨d, p2, rfl⟩
            have hd1 : d ∈ rep := hsuf.subset (List.mem_cons_self d p2)
            have hd2 : d ∈ userIdTag := by
              rw [← hpq]
              exact List.mem_append_left q (List.mem_cons_self d p2)
            exact absurd hd2 (hrep d hd1)
        · cases s with
          | nil =>
              obtain ⟨u, v, huv⟩ := hbad
              rw [show substUserId rep [] = [] from rfl] at huv
              simp [userIdTag] at huv
          | cons c rest =>
              rw [subst_cons_nomatch rep c rest htag] at hbad
              obtain ⟨u, v, huv⟩ := hbad
              have hlen2 : rest.length ≤ n := by
                simp only [List.length_cons] at hlen
                omega
              cases u with
              | nil =>
                  simp only [List.nil_append] at huv
                  have hc : '<' = c := by
                    have := congrArg List.head? huv
                    simpa [userIdTag] using this
                  have htail : ['u', 's', 'e', 'r', '_', 'i', 'd', '>'] ++ v
                      = substUserId rep rest := by
                    have := congrArg List.tail huv
                    simpa [userIdTag] using this
                  have hpre2 : ['u', 's', 'e', 'r', '_', 'i', 'd', '>']
                      <+: substUserId rep rest := ⟨v, htail⟩
                  have := prefixUnderSubst rep hrep hne n rest _ hlen2 hpre2
                    (by decide)
                  obtain ⟨w, hw⟩ := this
                  exact htag ⟨w, by rw [← hw, ← hc]; rfl⟩
              | cons d u2 =>
                  have htail2 : u2 ++ userIdTag ++ v = substUserId rep rest := by
                    have := congrArg List.tail huv
                    simpa using this
                  exact ih rest hlen2 ⟨u2, v, htail2⟩
  intro s
  exact main s.length s le_rfl

/-! Helper lemmas: the retry loop trace. -/

theorem runLoop_zero (env : Env) (uid : Int) (k : Nat) (prev fb : String) :
    runLoop env uid 0 k prev fb = (⟨true, ""⟩, []) := rfl

theorem runLoop_pos_ret (env : Env) (uid : Int) (rem k : Nat) (prev fb : String)
    (ret : ExecRet)
    (hv : (env.eval k (env.gen k prev fb)).is_correct = true)
    (hx : execute_readonly_query env.sqlite
      (substitute (env.gen k prev fb) uid) = Except.ok ret) :
    runLoop env uid (rem + 1) k prev fb =
      (⟨false, tool_answer_of ret⟩,
        [⟨k, prev, fb, env.gen k prev fb, env.eval k (env.gen k prev fb),
          some (substitute (env.gen k prev fb) uid),
          some (env.sqlite (substitute (env.gen k prev fb) uid))⟩]) := by
  simp only [runLoop]
  rw [hv]
  simp only [if_true, hx]

theorem runLoop_pos_err (env : Env) (uid : Int) (rem k : Nat) (prev fb : String)
    (m : String)
    (hv : (env.eval k (env.gen k prev fb)).is_correct = true)
    (hx : execute_readonly_query env.sqlite
      (substitute (env.gen k prev fb) uid) = Except.error m) :
    runLoop env uid (rem + 1) k prev fb =
      ((runLoop env uid rem (k + 1) (env.gen k prev fb)
          ("The SQL query failed to execute. Error: " ++ m)).1,
        ⟨k, prev, fb, env.gen k prev fb, env.eval k (env.gen k prev fb),
          some (substitute (env.gen k prev fb) uid),
          some (env.sqlite (substitute (env.gen k prev fb) uid))⟩ ::
        (runLoop env uid rem (k + 1) (env.gen k prev fb)
          ("The SQL query failed to execute. Error: " ++ m)).2) := by
  simp only [runLoop]
  rw [hv]
  simp only [if_true, hx]

theorem runLoop_neg (env : Env) (uid : Int) (rem k : Nat) (prev fb : String)
    (hv : (env.eval k (env.gen k prev fb)).is_correct = false) :
    runLoop env uid (rem + 1) k prev fb =
      ((runLoop env uid rem (k + 1) (env.gen k prev fb)
          (env.eval k (env.gen k prev fb)).feedback).1,
        ⟨k, prev, fb, env.gen k prev fb, env.eval k (env.gen k prev fb),
          none, none⟩ ::
        (runLoop env uid rem (k + 1) (env.gen k prev fb)
          (env.eval k (env.gen k prev fb)).feedback).2) := by
  simp only [runLoop]
  rw [hv]
  simp only [Bool.false_eq_true, if_false]

/-- Every attempt record in the trace is internally consistent: the candidate
came from generation on the recorded inputs, the verdict from evaluating that
candidate, and execution data is present exactly on approval, with the
substituted candidate as the executed query. -/
theorem runLoop_fields (env : Env) (uid : Int) :
    ∀ rem k prev fb, ∀ a ∈ (runLoop env uid rem k prev fb).2,
      a.candidate = env.gen a.idx a.prev_in a.feedback_in ∧
      a.verdict = env.eval a.idx a.candidate ∧
      a.exec_in = (if a.verdict.is_correct then
        some (substitute a.candidate uid) else none) ∧
      a.exec_out = (if a.verdict.is_correct then
        some (env.sqlite (substitute a.candidate uid)) else none) := by
  intro rem
  induction rem with
  | zero => intro k prev fb a ha; rw [runLoop_zero] at ha; cases ha
  | succ rem ih =>
      intro k prev fb a ha
      by_cases hv : (env.eval k (env.gen k prev fb)).is_correct = true
      · rcases hexec : execute_readonly_query env.sqlite
            (substitute (env.gen k prev fb) uid) with m | ret
        · rw [runLoop_pos_err env uid rem k prev fb m hv hexec] at ha
          rcases List.mem_cons.mp ha with rfl | hmem
          · exact ⟨rfl, rfl, by simp [hv], by simp [hv]⟩
          · exact ih (k + 1) (env.gen k prev fb) _ a hmem
        · rw [runLoop_pos_ret env uid rem k prev fb ret hv hexec] at ha
          rcases List.mem_cons.mp ha with rfl | hmem
          · exact ⟨rfl, rfl, by simp [hv], by simp [hv]⟩
          · cases hmem
      · have hv2 : (env.eval k (env.gen k prev fb)).is_correct = false :=
          Bool.not_eq_true _ ▸ eq_false_of_ne_true hv
        rw [runLoop_neg env uid rem k prev fb hv2] at ha
        rcases List.mem_cons.mp ha with rfl | hmem
        · exact ⟨rfl, rfl, by simp [hv2], by simp [hv2]⟩
        · exact ih (k + 1) (env.gen k prev fb) _ a hmem

theorem get?_zero_head {α : Type} (l : List α) : l.get? 0 = l.head? := by
  cases l <;> rfl

/-- An `Except.error` from the store means the sqlite layer raised an
exception that escaped `execute_readonly_query`. -/
theorem exec_error_exn {sqlite : String → SqliteOutcome} {q m : String}
    (h : execute_readonly_query sqlite q = Except.error m) :
    sqlite q = SqliteOutcome.exn m := by
  cases hq : sqlite q with
  | rows rs => rw [execute_readonly_query, hq] at h; cases h
  | sqliteErr m2 => rw [execute_readonly_query, hq] at h; cases h
  | exn m2 =>
      rw [execute_readonly_query, hq] at h
      cases h
      rfl

/-- The first attempt of any (non-exhausted) run records exactly the loop
inputs it was started with. -/
theorem runLoop_head (env : Env) (uid : Int) :
    ∀ rem k prev fb a, (runLoop env uid rem k prev fb).2.head? = some a →
      a.idx = k ∧ a.prev_in = prev ∧ a.feedback_in = fb := by
  intro rem k prev fb a ha
  cases rem with
  | zero => rw [runLoop_zero] at ha; cases ha
  | succ rem =>
      by_cases hv : (env.eval k (env.gen k prev fb)).is_correct = true
      · rcases hexec : execute_readonly_query env.sqlite
            (substitute (env.gen k prev fb) uid) with m | ret
        · rw [runLoop_pos_err env uid rem k prev fb m hv hexec] at ha
          simp only [List.head?_cons, Option.some.injEq] at ha
          exact ha ▸ ⟨rfl, rfl, rfl⟩
        · rw [runLoop_pos_ret env uid rem k prev fb ret hv hexec] at ha
          simp only [List.head?_cons, Option.some.injEq] at ha
          exact ha ▸ ⟨rfl, rfl, rfl⟩
      · have hv2 : (env.eval k (env.gen k prev fb)).is_correct = false :=
          Bool.not_eq_true _ ▸ eq_false_of_ne_true hv
        rw [runLoop_neg env uid rem k prev fb hv2] at ha
        simp only [List.head?_cons, Option.some.injEq] at ha
        exact ha ▸ ⟨rfl, rfl, rfl⟩

/-- Feedback chaining: whenever attempt `i+1` exists, its
`previous_response` input is attempt `i`'s candidate, and its feedback input
is attempt `i`'s verifier feedback (on rejection) or the wrapped message of
the exception attempt `i`'s execution raised. -/
theorem runLoop_chain (env : Env) (uid : Int) :
    ∀ rem k prev fb i a b,
      (runLoop env uid rem k prev fb).2.get? i = some a →
      (runLoop env uid rem k prev fb).2.get? (i + 1) = some b →
      b.prev_in = a.candidate ∧
      ((a.verdict.is_correct = false ∧ b.feedback_in = a.verdict.feedback) ∨
       (a.verdict.is_correct = true ∧ ∃ m,
          a.exec_out = some (SqliteOutcome.exn m) ∧
          b.feedback_in = "The SQL query failed to execute. Error: " ++ m)) := by
  intro rem
  induction rem with
  | zero =>
      intro k prev fb i a b ha _
      rw [runLoop_zero] at ha
      cases ha
  | succ rem ih =>
      intro k prev fb i a b ha hb
      by_cases hv : (env.eval k (env.gen k prev fb)).is_correct = true
      · rcases hexec : execute_readonly_query env.sqlite
            (substitute (env.gen k prev fb) uid) with m | ret
        · rw [runLoop_pos_err env uid rem k prev fb m hv hexec] at ha hb
          cases i with
          | zero =>
              simp only [List.get?_cons_zero, Option.some.injEq] at ha
              simp only [List.get?_cons_succ] at hb
              rw [get?_zero_head] at hb
              obtain ⟨_, hbp, hbf⟩ := runLoop_head env uid rem (k + 1) _ _ b hb
              subst ha
              refine ⟨hbp, Or.inr ⟨hv, m, ?_, hbf⟩⟩
              show some (env.sqlite (substitute (env.gen k prev fb) uid)) = _
              rw [exec_error_exn hexec]
          | succ j =>
              simp only [List.get?_cons_succ] at ha hb
              exact ih (k + 1) (env.gen k prev fb) _ j a b ha hb
        · rw [runLoop_pos_ret env uid rem k prev fb ret hv hexec] at hb
          rcases i with _ | j
          · cases hb
          · cases hj : ([] : List Attempt).get? j <;>
              simp only [List.get?_cons_succ] at hb <;> cases hb
      · have hv2 : (env.eval k (env.gen k prev fb)).is_correct = false :=
          Bool.not_eq_true _ ▸ eq_false_of_ne_true hv
        rw [runLoop_neg env uid rem k prev fb hv2] at ha hb
        cases i with
        | zero =>
            simp only [List.get?_cons_zero, Option.some.injEq] at ha
            simp only [List.get?_cons_succ] at hb
            rw [get?_zero_head] at hb
            obtain ⟨_, hbp, hbf⟩ := runLoop_head env uid rem (k + 1) _ _ b hb
            subst ha
            exact ⟨hbp, Or.inl ⟨hv2, hbf⟩⟩
        | succ j =>
            simp only [List.get?_cons_succ] at ha hb
            exact ih (k + 1) (env.gen k prev fb) _ j a b ha hb

/-! The claims. -/

/-- C5, counterexample: the claim's general one-row shape (pipe-separated
`column: value` pairs with the trailing separator trimmed, plus one newline)
fails for the singleton row whose value text ends in a pipe character:
`rstrip(" | ")` also removes characters of the value itself. -/
theorem C5_counterexample :
    format_result [[("a", Value.vtext "x|")]] = "a: x\n" ∧
    format_result [[("a", Value.vtext "x|")]]
      ≠ specSingletonLine [("a", Value.vtext "x|")] := by
  decide

/-- C5, amended: the formatter maps the empty row set to the fixed literal;
it maps the concrete one-row example to exactly the documented line; it maps
any singleton row set whose last value's text is non-empty and does not end
in a space or pipe to the documented pipe-separated line; and it maps two or
more rows to `str(result)`, a non-empty faithful rendering containing every
value's repr. -/
theorem C5_formatter_amended :
    (format_result [] = "No results found.") ∧
    (format_result [[("a", Value.vint 1), ("b", Value.vint 2)]]
      = "a: 1 | b: 2\n") ∧
    (∀ (row : Row) (kv : String × Value) (c : Char),
      row.getLast? = some kv → (pyStr kv.2).data.getLast? = some c →
      (c == ' ' || c == '|') = false →
      format_result [row] = specSingletonLine row) ∧
    (∀ rs : List Row, 2 ≤ rs.length →
      format_result rs = pyStrRows rs ∧ format_result rs ≠ "" ∧
      ∀ r ∈ rs, ∀ kv ∈ r,
        (pyRepr kv.2).data <:+: (format_result rs).data) := by
  refine ⟨by decide, by decide, ?_, ?_⟩
  · intro row kv c h1 h2 h3
    exact singleton_line_ok row kv c h1 h2 h3
  · intro rs h
    refine ⟨format_result_multi rs h, ?_, ?_⟩
    · rw [format_result_multi rs h]
      exact pyStrRows_ne_empty rs
    · intro r hr kv hkv
      rw [format_result_multi rs h]
      exact (pyRepr_subIn_rowRepr r kv hkv).trans (rowRepr_subIn_pyStrRows rs r hr)

/-- C5, witness: the amended theorem applied at a concrete singleton row and
a concrete two-row set. -/
theorem C5_witness :
    format_result [[("u", Value.vint 5)]] = specSingletonLine [("u", Value.vint 5)] ∧
    format_result [[("a", Value.vint 1)], [("a", Value.vint 2)]]
      = pyStrRows [[("a", Value.vint 1)], [("a", Value.vint 2)]] :=
  ⟨C5_formatter_amended.2.2.1 [("u", Value.vint 5)] ("u", Value.vint 5) '5'
      (by decide) (by decide) (by decide),
   (C5_formatter_amended.2.2.2 [[("a", Value.vint 1)], [("a", Value.vint 2)]]
      (by decide)).1⟩

/-- C9, counterexample: the singleton row whose (only, hence last) value's
text is empty has no last character at all — so it does not end in a space
or pipe — yet the documented one-row shape fails on it: the space after the
colon is also stripped. -/
theorem C9_counterexample :
    (pyStr (Value.vtext "")).data.getLast? = none ∧
    format_result [[("a", Value.vtext "")]] = "a:\n" ∧
    format_result [[("a", Value.vtext "")]]
      ≠ specSingletonLine [("a", Value.vtext "")] := by
  decide

/-- C9, amended: the documented one-row shape holds for every singleton row
whose last value's text is non-empty and does not end in a space or pipe
character; and for some singleton rows (last value text ending in a pipe)
`rstrip(" | ")` removes characters of the value itself. -/
theorem C9_rstrip_amended :
    (∀ (row : Row) (kv : String × Value) (c : Char),
      row.getLast? = some kv → (pyStr kv.2).data.getLast? = some c →
      (c == ' ' || c == '|') = false →
      format_result [row] = specSingletonLine row) ∧
    format_result [[("b", Value.vtext "y|")]] = "b: y\n" :=
  ⟨fun row kv c h1 h2 h3 => singleton_line_ok row kv c h1 h2 h3, by decide⟩

/-- C9, witness: the amended theorem applied at a concrete singleton row. -/
theorem C9_witness :
    format_result [[("c", Value.vint 3)]] = specSingletonLine [("c", Value.vint 3)] ∧
    format_result [[("b", Value.vtext "y|")]] = "b: y\n" :=
  ⟨C9_rstrip_amended.1 [("c", Value.vint 3)] ("c", Value.vint 3) '3'
      (by decide) (by decide) (by decide),
   C9_rstrip_amended.2⟩

/-- C2, code bug: in a run whose single verification-approved attempt fails
to execute (sqlite error `no such column`), the loop does NOT perform 3
generation attempts and does NOT set the tool-error flag: src/db.py line 100
returns the error string instead of raising, so the agent's `except` branch
never runs, the error string flows through `str(result)` into `tool_answer`,
and the loop returns after exactly one attempt with `tool_error = False`. -/
theorem C2_retry_bound_bug :
    (sql_query envBadColumn 7).1
      = ⟨false, "An error occurred: no such column: profi"⟩ ∧
    (sql_query envBadColumn 7).2.length = 1 := by
  decide

/-- C3, code bug: when execution of a verifier-approved query hits a sqlite
error, the raw diagnostic string IS surfaced as the answer and no feedback
is produced for a next attempt — `execute_readonly_query` returns the string
`"An error occurred: {e}"` (src/db.py line 100) instead of raising, so the
conversion of the error into feedback at src/agent.py lines 223-226 is dead
code for sqlite errors and the loop ends on attempt one. -/
theorem C3_execution_error_bug :
    (sql_query envBadTable 3).1.tool_answer
      = "An error occurred: no such table: dealz" ∧
    (sql_query envBadTable 3).1.tool_error = false ∧
    (sql_query envBadTable 3).2
      = [⟨0, "", "", "SELECT * FROM dealz WHERE user_id = <user_id>",
          ⟨true, ""⟩, some "SELECT * FROM dealz WHERE user_id = 3",
          some (SqliteOutcome.sqliteErr "no such table: dealz")⟩] := by
  decide

/-- C4, code bug: `execute_readonly_query` never commits, which rolls DML
(INSERT, UPDATE, DELETE) back on close — but under Python sqlite3's default
legacy transaction control a DDL statement such as DROP TABLE runs in
autocommit mode, so `execute_readonly_query("DROP TABLE deals")` permanently
mutates the store. -/
theorem C4_readonly_store_bug :
    (execute_readonly_query_state (SqlStmt.dropTable "deals") dbDeals).1
      ≠ dbDeals ∧
    (execute_readonly_query_state (SqlStmt.dropTable "deals") dbDeals).1
      = ⟨[]⟩ ∧
    (execute_readonly_query_state (SqlStmt.deleteAll "deals") dbDeals).1
      = dbDeals ∧
    (execute_readonly_query_state
        (SqlStmt.updateSet "deals" "profit" (Value.vint 0)) dbDeals).1
      = dbDeals ∧
    (execute_readonly_query_state
        (SqlStmt.insertRow "deals" [("id", Value.vint 2)]) dbDeals).1
      = dbDeals := by
  decide

/-- C10: tenant substitution is a global replace of the literal token
`"<user_id>"` — every executed query is exactly the replace of the approved
candidate, after which no occurrence of the token remains; the controller
performs no occurrence check, so a candidate with no occurrence is passed to
execution verbatim; and a double-occurrence candidate has both occurrences
replaced with the same identifier. -/
theorem C10_substitution_semantics (env : Env) (uid : Int)
    (hd : ∀ ch ∈ (toString uid).data, ch ∉ userIdTag)
    (hn : (toString uid).data ≠ []) :
    (∀ a ∈ (sql_query env uid).2, ∀ q, a.exec_in = some q →
      q = substitute a.candidate uid ∧
      ¬ userIdTag <:+: q.data ∧
      (¬ userIdTag <:+: a.candidate.data → q = a.candidate)) ∧
    (∀ cand : String, ¬ userIdTag <:+: cand.data → substitute cand uid = cand) ∧
    substitute "SELECT * FROM deals WHERE user_id = <user_id> AND id = <user_id>" 7
      = "SELECT * FROM deals WHERE user_id = 7 AND id = 7" := by
  refine ⟨?_, ?_, by decide⟩
  · intro a ha q hq
    obtain ⟨_, _, hin, _⟩ := runLoop_fields env uid 3 0 "" "" a ha
    rw [hq] at hin
    by_cases hvc : a.verdict.is_correct = true
    · rw [hvc, if_pos rfl] at hin
      have hq2 : q = substitute a.candidate uid := by
        exact (Option.some.injEq _ _ ▸ hin :)
      refine ⟨hq2, ?_, ?_⟩
      · rw [hq2]
        exact substUserId_no_tag (toString uid).data hd hn a.candidate.data
      · intro hno
        rw [hq2]
        exact strExt (subst_of_no_tag (toString uid).data a.candidate.data hno)
    · rw [eq_false_of_ne_true hvc] at hin
      simp at hin
  · intro cand hc
    exact strExt (subst_of_no_tag (toString uid).data cand.data hc)

/-- C10, witness: the substitution facts at tenant identifier 7, on the
first attempt of a concrete run whose approved candidate carries no token. -/
theorem C10_witness :
    ("SELECT * FROM deals" : String) = substitute "SELECT * FROM deals" 1 ∧
    ¬ userIdTag <:+: ("SELECT * FROM deals" : String).data ∧
    substitute "SELECT balance" 7 = "SELECT balance" :=
  ⟨((C10_substitution_semantics envTwoTenants 1 (by decide) (by decide)).1
      ⟨0, "", "", "SELECT * FROM deals", ⟨true, ""⟩, some "SELECT * FROM deals",
        some (SqliteOutcome.rows [[("user_id", Value.vint 1), ("profit", Value.vint 5)],
          [("user_id", Value.vint 2), ("profit", Value.vint 9)]])⟩
      (by decide) "SELECT * FROM deals" rfl).1,
   by decide,
   (C10_substitution_semantics envTwoTenants 7 (by decide) (by decide)).2.1
      "SELECT balance" (by decide)⟩

/-- C7: in every attempt of every run, the verifier is invoked on the raw
candidate exactly as generated (never a substituted form), and placeholder
substitution happens exactly at the execution site — the executed string is
the single replace of the approved candidate with the loop's fixed tenant
identifier, and rejected attempts execute nothing. -/
theorem C7_placeholder_confidentiality (env : Env) (uid : Int) :
    ∀ a ∈ (sql_query env uid).2,
      a.candidate = env.gen a.idx a.prev_in a.feedback_in ∧
      a.verdict = env.eval a.idx a.candidate ∧
      a.exec_in = (if a.verdict.is_correct then
        some (substitute a.candidate uid) else none) := by
  intro a ha
  obtain ⟨h1, h2, h3, _⟩ := runLoop_fields env uid 3 0 "" "" a ha
  exact ⟨h1, h2, h3⟩

/-- C7, witness: the confidentiality facts on the first attempt of the
always-rejecting run. -/
theorem C7_witness :
    (Attempt.mk 0 "" "" "g0" ⟨false, "r0"⟩ none none).candidate
        = envReject.gen 0 "" "" ∧
    (Attempt.mk 0 "" "" "g0" ⟨false, "r0"⟩ none none).verdict
        = envReject.eval 0 "g0" ∧
    (Attempt.mk 0 "" "" "g0" ⟨false, "r0"⟩ none none).exec_in
        = (if (SQLEvaluation.mk false "r0").is_correct then
            some (substitute "g0" 2) else none) :=
  C7_placeholder_confidentiality envReject 2
    ⟨0, "", "", "g0", ⟨false, "r0"⟩, none, none⟩ (by decide)

/-- C8: if the first generated candidate is approved by the verifier and its
substituted form executes to a row set, the loop returns after exactly one
attempt — one synthesis, one verification, one execution — with the
formatted answer and no error flag. -/
theorem C8_immediate_success (env : Env) (uid : Int) (rs : List Row)
    (hv : (env.eval 0 (env.gen 0 "" "")).is_correct = true)
    (hx : env.sqlite (substitute (env.gen 0 "" "") uid)
      = SqliteOutcome.rows rs) :
    sql_query env uid =
      (⟨false, format_result rs⟩,
        [⟨0, "", "", env.gen 0 "" "", env.eval 0 (env.gen 0 "" ""),
          some (substitute (env.gen 0 "" "") uid),
          some (SqliteOutcome.rows rs)⟩]) := by
  have hexec : execute_readonly_query env.sqlite
      (substitute (env.gen 0 "" "") uid) = Except.ok (ExecRet.rows rs) := by
    rw [execute_readonly_query, hx]
  show runLoop env uid 3 0 "" "" = _
  rw [runLoop_pos_ret env uid 2 0 "" "" (ExecRet.rows rs) hv hexec, hx]
  rfl

/-- C8, witness: the happy run at tenant 7 completes in one attempt with the
single-line balance answer. -/
theorem C8_witness :
    sql_query envHappy 7 =
      (⟨false, "balance: 100\n"⟩,
        [⟨0, "", "", "SELECT balance FROM users WHERE user_id = <user_id>",
          ⟨true, ""⟩, some "SELECT balance FROM users WHERE user_id = 7",
          some (SqliteOutcome.rows [[("balance", Value.vint 100)]])⟩]) := by
  rw [C8_immediate_success envHappy 7 [[("balance", Value.vint 100)]]
    (by decide) (by decide)]
  decide

/-- C1, counterexample: the controller performs no tenant check of its own —
with a verifier that approves the unscoped candidate `SELECT * FROM deals`
(a possible LLM behaviour) over a two-tenant store, the run for tenant 1
executes the approved candidate and receives a row whose `user_id` is 2, and
that foreign row flows into the produced answer. -/
theorem C1_counterexample :
    (sql_query envTwoTenants 1).2
      = [⟨0, "", "", "SELECT * FROM deals", ⟨true, ""⟩,
          some "SELECT * FROM deals",
          some (SqliteOutcome.rows
            [[("user_id", Value.vint 1), ("profit", Value.vint 5)],
             [("user_id", Value.vint 2), ("profit", Value.vint 9)]])⟩] ∧
    lookupVal "user_id" [("user_id", Value.vint 2), ("profit", Value.vint 9)]
      = some (Value.vint 2) ∧
    Value.vint 2 ≠ Value.vint 1 ∧
    (sql_query envTwoTenants 1).1.tool_answer
      = pyStrRows [[("user_id", Value.vint 1), ("profit", Value.vint 5)],
          [("user_id", Value.vint 2), ("profit", Value.vint 9)]] := by
  decide

/-- C1, amended: tenant isolation is conditional on the collaborators the
controller trusts — if every candidate the verifier approves is such that
its placeholder-substituted form executes to rows all carrying the
requesting tenant's `user_id`, then every executed row set in the loop
contains only rows of that tenant.  The controller itself adds no check. -/
theorem C1_tenant_isolation_amended (env : Env) (uid : Int)
    (H : ∀ (k : Nat) (cand : String) (rs : List Row),
      (env.eval k cand).is_correct = true →
      env.sqlite (substitute cand uid) = SqliteOutcome.rows rs →
      ∀ r ∈ rs, lookupVal "user_id" r = some (Value.vint uid)) :
    ∀ a ∈ (sql_query env uid).2, ∀ rs : List Row,
      a.exec_out = some (SqliteOutcome.rows rs) →
      ∀ r ∈ rs, lookupVal "user_id" r = some (Value.vint uid) := by
  intro a ha rs hout r hr
  obtain ⟨_, h2, _, h4⟩ := runLoop_fields env uid 3 0 "" "" a ha
  by_cases hvc : a.verdict.is_correct = true
  · rw [hvc, if_pos rfl] at h4
    rw [hout] at h4
    have hx : env.sqlite (substitute a.candidate uid) = SqliteOutcome.rows rs :=
      (Option.some.injEq _ _ ▸ h4 :).symm
    have hv : (env.eval a.idx a.candidate).is_correct = true := by
      rw [← h2]; exact hvc
    exact H a.idx a.candidate rs hv hx r hr
  · rw [eq_false_of_ne_true hvc] at h4
    simp only [Bool.false_eq_true, if_false] at h4
    rw [h4] at hout
    cases hout

/-- C1, witness: the amended theorem at a collaborator pair whose approved
candidate is tenant-filtered and whose store honours the filter. -/
theorem C1_witness :
    lookupVal "user_id" [("user_id", Value.vint 1)] = some (Value.vint 1) :=
  C1_tenant_isolation_amended envScoped 1
    (by
      intro k cand rs _ hx
      simp only [envScoped] at hx
      split at hx
      · cases hx
        intro r hr
        rcases List.mem_singleton.mp hr with rfl
        decide
      · cases hx
        intro r hr
        cases hr)
    ⟨0, "", "", "SELECT * FROM deals WHERE user_id = <user_id>", ⟨true, ""⟩,
      some "SELECT * FROM deals WHERE user_id = 1",
      some (SqliteOutcome.rows [[("user_id", Value.vint 1)]])⟩
    (by decide)
    [[("user_id", Value.vint 1)]]
    (by decide)
    [("user_id", Value.vint 1)]
    (by decide)

/-- C6, counterexample: attempt 0 is approved and its execution raises an
exception with message `boom`, yet the feedback supplied to attempt 1 is not
that execution error message — it is the message embedded in the fixed
wrapper `The SQL query failed to execute. Error: ...` built at src/agent.py
line 225. -/
theorem C6_counterexample :
    (sql_query envBoom 5).2.get? 0
      = some ⟨0, "", "", "g0", ⟨true, "r0"⟩, some "g0",
          some (SqliteOutcome.exn "boom")⟩ ∧
    (sql_query envBoom 5).2.get? 1
      = some ⟨1, "g0", "The SQL query failed to execute. Error: boom", "g1",
          ⟨false, "r1"⟩, none, none⟩ ∧
    "The SQL query failed to execute. Error: boom" ≠ "boom" := by
  decide

/-- C6, amended: the first attempt receives empty previous-candidate and
feedback inputs; and whenever attempt i+1 exists, its previous-candidate
input is attempt i's candidate and its feedback input is exactly attempt i's
verifier feedback (on rejection) or attempt i's execution-error message
embedded in the fixed wrapper `The SQL query failed to execute. Error: ...`
(on a raising execution) — never stale data from an earlier attempt. -/
theorem C6_feedback_amended (env : Env) (uid : Int) (i : Nat) (a b : Attempt) :
    (∀ a0, (sql_query env uid).2.head? = some a0 →
      a0.prev_in = "" ∧ a0.feedback_in = "") ∧
    ((sql_query env uid).2.get? i = some a →
      (sql_query env uid).2.get? (i + 1) = some b →
      b.prev_in = a.candidate ∧
      ((a.verdict.is_correct = false ∧ b.feedback_in = a.verdict.feedback) ∨
       (a.verdict.is_correct = true ∧ ∃ m,
          a.exec_out = some (SqliteOutcome.exn m) ∧
          b.feedback_in = "The SQL query failed to execute. Error: " ++ m))) := by
  constructor
  · intro a0 h
    obtain ⟨_, h2, h3⟩ := runLoop_head env uid 3 0 "" "" a0 h
    exact ⟨h2, h3⟩
  · intro ha hb
    exact runLoop_chain env uid 3 0 "" "" i a b ha hb

/-- C6, witness: the amended theorem at the always-rejecting run — attempt
0 starts empty, and attempt 1's feedback input is attempt 0's verifier
feedback. -/
theorem C6_witness :
    ((Attempt.mk 0 "" "" "g0" ⟨false, "r0"⟩ none none).prev_in = "" ∧
      (Attempt.mk 0 "" "" "g0" ⟨false, "r0"⟩ none none).feedback_in = "") ∧
    ((Attempt.mk 1 "g0" "r0" "g1" ⟨false, "r1"⟩ none none).prev_in
        = (Attempt.mk 0 "" "" "g0" ⟨false, "r0"⟩ none none).candidate ∧
      (((Attempt.mk 0 "" "" "g0" ⟨false, "r0"⟩ none none).verdict.is_correct = false ∧
        (Attempt.mk 1 "g0" "r0" "g1" ⟨false, "r1"⟩ none none).feedback_in
          = (Attempt.mk 0 "" "" "g0" ⟨false, "r0"⟩ none none).verdict.feedback) ∨
       ((Attempt.mk 0 "" "" "g0" ⟨false, "r0"⟩ none none).verdict.is_correct = true ∧
        ∃ m, (Attempt.mk 0 "" "" "g0" ⟨false, "r0"⟩ none none).exec_out
            = some (SqliteOutcome.exn m) ∧
          (Attempt.mk 1 "g0" "r0" "g1" ⟨false, "r1"⟩ none none).feedback_in
            = "The SQL query failed to execute. Error: " ++ m))) :=
  ⟨(C6_feedback_amended envReject 4 0
      ⟨0, "", "", "g0", ⟨false, "r0"⟩, none, none⟩
      ⟨1, "g0", "r0", "g1", ⟨false, "r1"⟩, none, none⟩).1
      ⟨0, "", "", "g0", ⟨false, "r0"⟩, none, none⟩ (by decide),
   (C6_feedback_amended envReject 4 0
      ⟨0, "", "", "g0", ⟨false, "r0"⟩, none, none⟩
      ⟨1, "g0", "r0", "g1", ⟨false, "r1"⟩, none, none⟩).2
      (by decide) (by decide)⟩
